import Mathlib

/-
Verification development for the fileflow repository (Go).

Shallow embedding of the parts of the code relevant to the claims:
  * internal/auth/token.go          (TokenManager.Sign / Verify)
  * internal/auth/jwk.go            (ParseECPublicJWK*, DeviceIDFromJWK helpers)
  * device id validation            (ValidateDeviceIDFormat / ValidateDeviceID)
  * the challenge store             (ChallengeStore.Consume)
  * internal/handler/api.go         (handleAdminDevices, handleDeviceAttest,
                                     verifyDeviceTicket, handleWebSocket)
  * internal/handler/middleware.go  (getClientIP / isTrusted)
  * internal/limit/limiter.go       (ConnLimiter.Increment)
  * internal/realtime/events.go     (Client.handleMessage and the per-message
                                     state machine)
  * internal/realtime/hub.go        (Hub.SendToPeer, Hub.Broadcast)

Modelling conventions: machine integers become Int or Nat (no overflow is
reachable in the modelled quantities), time.Now() becomes an explicit
`now : Int` parameter in Unix seconds, byte slices become List Nat, Go maps
become association lists with insert-overwrite / erase / lookup operations,
and fallible functions return Except or Option.
-/

namespace FileFlow

/-! ## Token service (internal/auth/token.go) -/

/-- Claims payload of a token: fields `v`, `sid`, `iat`, `exp`
(struct Claims in token.go). -/
structure Claims where
  ver : Int
  sid : String
  iat : Int
  exp : Int
deriving DecidableEq, Repr

/-- TokenManager holds the HMAC secret (struct TokenManager in token.go). -/
structure TokenManager where
  secret : List Nat
deriving DecidableEq

/-- Byte-level rendering of the encoded payload that is fed to the HMAC.
The Go code feeds base64url(json.Marshal claims) to HMAC-SHA256; since
json encoding followed by decoding is the identity on the Claims struct,
the payload is carried structurally and this function stands for its byte
serialization. -/
def claimsBytes (c : Claims) : List Nat :=
  [c.ver.natAbs, c.iat.natAbs, c.exp.natAbs, c.sid.length]
    ++ c.sid.toList.map Char.toNat

/-- Model of computeHMAC (token.go): HMAC-SHA256 over the encoded payload is
replaced by a concrete deterministic keyed digest.  Every claim settled here
depends only on the digest being a function of (key, payload) that Verify
compares for equality (constant-time in the source); no claim concerns
forgery or collision resistance. -/
def computeHMAC (secret : List Nat) (c : Claims) : List Nat :=
  (secret ++ [29] ++ claimsBytes c).foldl
    (fun acc b => acc ++ [(acc.length + b * 31) % 4294967296]) []

/-- Wire token: payloadB64 "." sigB64.  The base64url payload segment is
carried as the Claims value it encodes (base64url of the json encoding is
injective, so this loses nothing), the signature segment as its decoded
bytes. -/
structure Token where
  payload : Claims
  sig : List Nat
deriving DecidableEq

/-- Error values of token verification (token.go); versionMismatch is the
ErrVersion outcome of the version-checking wrapper. -/
inductive TokenError
  | invalidFormat
  | invalidSignature
  | tokenExpired
  | versionMismatch
deriving DecidableEq, Repr

/-- TokenManager.Sign (token.go lines 36-55): claims are built with
iat = now, exp = now+ttl (ttl in seconds) and signed with computeHMAC. -/
def TokenManager.sign (tm : TokenManager) (sid : String) (version : Int)
    (ttl : Int) (now : Int) : Token :=
  let c : Claims := { ver := version, sid := sid, iat := now, exp := now + ttl }
  { payload := c, sig := computeHMAC tm.secret c }

/-- TokenManager.Verify (token.go lines 57-94): check the signature by
constant-time comparison against the recomputed HMAC, decode the payload
(identity in this embedding), then reject when now > exp. -/
def TokenManager.verify (tm : TokenManager) (t : Token) (now : Int) :
    Except TokenError Claims :=
  if computeHMAC tm.secret t.payload ≠ t.sig then
    .error .invalidSignature
  else if now > t.payload.exp then
    .error .tokenExpired
  else
    .ok t.payload

/-- Modelled from the spec: the constant TokenVersionSession referenced by
the handlers in src is declared in an auth file that is not under src/.
Spec section 3: ver 1 = session. -/
def TokenVersionSession : Int := 1

/-- Modelled from the spec: the constant TokenVersionDeviceTicket referenced
by the handlers in src is declared in an auth file that is not under src/.
Spec section 3: ver 2 = device ticket. -/
def TokenVersionDeviceTicket : Int := 2

/-- Modelled from the spec: TokenManager.VerifyWithVersion is called
throughout src/internal/handler/api.go but its definition is not under
src/.  Spec section 4.2: verify(token, expected_version) returns claims or
ErrFormat / ErrSignature / ErrExpired / ErrVersion; the version field of
the verified claims must match the slot the caller is checking. -/
def TokenManager.verifyWithVersion (tm : TokenManager) (t : Token)
    (expected : Int) (now : Int) : Except TokenError Claims :=
  match tm.verify t now with
  | .error e => .error e
  | .ok c => if c.ver ≠ expected then .error .versionMismatch else .ok c

end FileFlow

namespace FileFlow

/-! ## Theorems about the token service (claims C1, C8, C10) -/

/-- C1: a token minted with version 2 (device ticket) is never accepted by a
verification that expects version 1 (session), and a token minted with
version 1 is never accepted where version 2 is expected; cross-version
substitution never yields accepted claims, at any verification time. -/
theorem token_version_separation (tm : TokenManager) (sid : String)
    (ttl tMint tCheck : Int) (c : Claims) :
    tm.verifyWithVersion (tm.sign sid TokenVersionDeviceTicket ttl tMint)
        TokenVersionSession tCheck ≠ .ok c ∧
    tm.verifyWithVersion (tm.sign sid TokenVersionSession ttl tMint)
        TokenVersionDeviceTicket tCheck ≠ .ok c := by
  constructor <;>
  · intro h
    simp only [TokenManager.verifyWithVersion, TokenManager.verify,
      TokenManager.sign, TokenVersionSession, TokenVersionDeviceTicket] at h
    rw [if_neg (by simp)] at h
    split at h
    · exact absurd h (by simp)
    · next c' heq =>
        split at heq
        · exact absurd heq (by simp)
        · injection heq with h2
          subst h2
          rw [if_pos (by simp)] at h
          exact absurd h (by simp)

/-- C8 (counterexample): the round-trip law fails for a negative ttl.  With
ttl = -60 seconds the token produced by sign is already expired at the
signing instant and verification fails with ErrTokenExpired instead of
returning claims (mirroring TestTokenManager_Expired in token_test.go). -/
theorem token_roundtrip_negative_ttl :
    (TokenManager.mk [1, 2, 3]).verifyWithVersion
        ((TokenManager.mk [1, 2, 3]).sign "s" 1 (-60) 1000) 1 1000
      = .error .tokenExpired := by
  rfl

/-- C8 (amended): for every sid, version v and nonnegative ttl, verifying the
token produced by sign(sid, v, ttl) with expected version v at the signing
instant succeeds and returns claims whose sid equals the input sid, whose
ver equals v, and whose exp equals iat + ttl. -/
theorem token_roundtrip (tm : TokenManager) (sid : String) (v ttl now : Int)
    (httl : 0 ≤ ttl) :
    tm.verifyWithVersion (tm.sign sid v ttl now) v now
      = .ok { ver := v, sid := sid, iat := now, exp := now + ttl } := by
  simp only [TokenManager.verifyWithVersion, TokenManager.verify,
    TokenManager.sign]
  rw [if_neg (by simp), if_neg (by omega)]
  simp

/-- C8 witness: the amended round-trip law at a concrete input. -/
theorem token_roundtrip_witness :
    (TokenManager.mk [5]).verifyWithVersion
        ((TokenManager.mk [5]).sign "abc" 2 900 50) 2 50
      = .ok { ver := 2, sid := "abc", iat := 50, exp := 950 } :=
  token_roundtrip (TokenManager.mk [5]) "abc" 2 900 50 (by norm_num)

/-- C10: for a token with a valid signature (one produced by sign), Verify
rejects with ErrTokenExpired exactly when now is strictly greater than exp,
and a token presented at the exact second of its expiry (now = exp = iat +
ttl) is accepted. -/
theorem token_expiry_boundary (tm : TokenManager) (sid : String)
    (v ttl tMint now : Int) :
    (tm.verify (tm.sign sid v ttl tMint) now = .error .tokenExpired
        ↔ now > tMint + ttl) ∧
    tm.verify (tm.sign sid v ttl tMint) (tMint + ttl)
      = .ok { ver := v, sid := sid, iat := tMint, exp := tMint + ttl } := by
  constructor
  · simp only [TokenManager.verify, TokenManager.sign]
    rw [if_neg (by simp)]
    constructor
    · intro h
      by_contra hc
      rw [if_neg hc] at h
      exact absurd h (by simp)
    · intro h
      rw [if_pos h]
  · simp only [TokenManager.verify, TokenManager.sign]
    rw [if_neg (by simp), if_neg (by omega)]

end FileFlow

namespace FileFlow
namespace Realtime

/-! ## Realtime events and the per-connection message state machine
    (internal/realtime/events.go) -/

/-- Size and paragraph bounds (events.go lines 19-23). -/
def MaxChunkSize : Nat := 4 * 1024

/-- Cumulative per-message byte bound (events.go). -/
def MaxMessageSize : Nat := 256 * 1024

/-- Paragraph index bound (events.go). -/
def MaxParagraphs : Int := 512

/-- Per-message bookkeeping (struct MessageState in events.go). -/
structure MessageState where
  msgID : String
  paraCount : Int
  totalBytes : Nat
  currentPara : Int
deriving DecidableEq, Repr

/-- An inbound frame after ParseEvent and the Get* accessors: type is the
envelope's t field, msgId the result of GetMsgID (empty string when absent),
paraIdx the result of GetParaIndex (-1 when absent), and chunkBytes the byte
length of GetChunkText's result (only the length of the chunk is ever
inspected by the handlers). -/
structure Frame where
  type : String
  msgId : String
  paraIdx : Int
  chunkBytes : Nat
deriving DecidableEq, Repr

/-- The connection's activeMessages map, as an association list. -/
abbrev ActiveMap := List (String × MessageState)

/-- Go map lookup. -/
def mapLookup (m : ActiveMap) (k : String) : Option MessageState :=
  match m with
  | [] => none
  | (k', v) :: rest => if k' = k then some v else mapLookup rest k

/-- Go map assignment: overwrite an existing entry or append a new one. -/
def mapInsert (m : ActiveMap) (k : String) (v : MessageState) : ActiveMap :=
  match m with
  | [] => [(k, v)]
  | (k', v') :: rest =>
      if k' = k then (k, v) :: rest else (k', v') :: mapInsert rest k v

/-- Go map delete (a no-op when the key is absent). -/
def mapErase (m : ActiveMap) (k : String) : ActiveMap :=
  match m with
  | [] => []
  | (k', v') :: rest =>
      if k' = k then rest else (k', v') :: mapErase rest k

/-- Observable effects of handling one inbound frame: a forward of the raw
frame to the peer (hub.SendToPeer) or a send_fail event enqueued on the
sender's own outbound queue. -/
inductive Output
  | toPeer (f : Frame)
  | failToSender (msgId reason : String)
deriving DecidableEq, Repr

/-- Client.sendFail (events.go lines 345-364): enqueue one send_fail event to
the sender (non-blocking) and delete the message state. -/
def sendFail (st : ActiveMap) (msgId reason : String) :
    ActiveMap × List Output :=
  (mapErase st msgId, [.failToSender msgId reason])

/-- Client.handleMsgStart (events.go lines 244-265): empty id is dropped;
with no peer reply send_fail peer_offline; otherwise assign a fresh state
under msgId (overwriting any existing entry, with no duplicate check and no
cap on the number of active states) and forward. -/
def handleMsgStart (hasPeer : Bool) (st : ActiveMap) (f : Frame) :
    ActiveMap × List Output :=
  if f.msgId = "" then (st, [])
  else if ¬hasPeer then sendFail st f.msgId "peer_offline"
  else (mapInsert st f.msgId
          { msgID := f.msgId, paraCount := 0, totalBytes := 0,
            currentPara := -1 },
        [.toPeer f])

/-- Client.handleParaStart (events.go lines 267-289). -/
def handleParaStart (st : ActiveMap) (f : Frame) : ActiveMap × List Output :=
  match mapLookup st f.msgId with
  | none => (st, [])
  | some state =>
      if f.paraIdx ≥ MaxParagraphs then
        sendFail st f.msgId "max_paragraphs_exceeded"
      else
        (mapInsert st f.msgId
           { state with currentPara := f.paraIdx,
                        paraCount := state.paraCount + 1 },
         [.toPeer f])

/-- Client.handleParaChunk (events.go lines 291-318): the running total is
incremented in place before the overflow check; a violation then discards
the state via sendFail. -/
def handleParaChunk (st : ActiveMap) (f : Frame) : ActiveMap × List Output :=
  match mapLookup st f.msgId with
  | none => (st, [])
  | some state =>
      if f.chunkBytes > MaxChunkSize then
        sendFail st f.msgId "chunk_too_large"
      else
        let state' := { state with totalBytes := state.totalBytes + f.chunkBytes }
        let st' := mapInsert st f.msgId state'
        if state'.totalBytes > MaxMessageSize then
          sendFail st' f.msgId "message_too_large"
        else
          (st', [.toPeer f])

/-- Client.handleParaEnd (events.go lines 320-333). -/
def handleParaEnd (st : ActiveMap) (f : Frame) : ActiveMap × List Output :=
  match mapLookup st f.msgId with
  | none => (st, [])
  | some state =>
      (mapInsert st f.msgId { state with currentPara := -1 }, [.toPeer f])

/-- Client.handleMsgEnd (events.go lines 335-343): the state is deleted
(a no-op when absent) and the frame is forwarded unconditionally, even when
no active state exists for the id. -/
def handleMsgEnd (st : ActiveMap) (f : Frame) : ActiveMap × List Output :=
  (mapErase st f.msgId, [.toPeer f])

/-- Client.handleMessage (events.go lines 221-242): dispatch on the event
type; ack forwards with no validation; unknown types are ignored. -/
def handleMessage (hasPeer : Bool) (st : ActiveMap) (f : Frame) :
    ActiveMap × List Output :=
  if f.type = "msg_start" then handleMsgStart hasPeer st f
  else if f.type = "para_start" then handleParaStart st f
  else if f.type = "para_chunk" then handleParaChunk st f
  else if f.type = "para_end" then handleParaEnd st f
  else if f.type = "msg_end" then handleMsgEnd st f
  else if f.type = "ack" then (st, [.toPeer f])
  else (st, [])

/-- Process a list of inbound frames in order, accumulating outputs. -/
def runFrames (hasPeer : Bool) (st : ActiveMap) :
    List Frame → ActiveMap × List Output
  | [] => (st, [])
  | f :: fs =>
      let (st', out) := handleMessage hasPeer st f
      let (st'', outs) := runFrames hasPeer st' fs
      (st'', out ++ outs)

end Realtime
end FileFlow

namespace FileFlow
namespace Realtime

/-! ## Map lemmas and theorems for claims C3 and C4 -/

/-- Erasing a key right after overwriting it is the same as erasing it from
the original map. -/
theorem mapErase_mapInsert (st : ActiveMap) (k : String) (v : MessageState) :
    mapErase (mapInsert st k v) k = mapErase st k := by
  induction st with
  | nil => simp [mapInsert, mapErase]
  | cons hd tl ih =>
      obtain ⟨k', v'⟩ := hd
      by_cases h : k' = k
      · simp [mapInsert, mapErase, h]
      · simp [mapInsert, mapErase, h, ih]

/-- C3 (counterexample): after a chunk_too_large violation discards the state
of m1, a subsequent msg_end frame bearing m1 is still forwarded to the peer
(handleMsgEnd forwards unconditionally), contradicting the claim that no
subsequent frame bearing that message id, of any type, is forwarded and that
frames referencing a message id with no active state are dropped silently.
The run contains exactly one send_fail and then a forwarded msg_end. -/
theorem bound_violation_counterexample :
    runFrames true []
        [⟨"msg_start", "m1", -1, 0⟩, ⟨"para_start", "m1", 0, 0⟩,
         ⟨"para_chunk", "m1", 0, 4097⟩, ⟨"msg_end", "m1", -1, 0⟩]
      = ([], [.toPeer ⟨"msg_start", "m1", -1, 0⟩,
              .toPeer ⟨"para_start", "m1", 0, 0⟩,
              .failToSender "m1" "chunk_too_large",
              .toPeer ⟨"msg_end", "m1", -1, 0⟩]) := by
  decide

/-- C3 (amended): a frame that violates a size or paragraph bound (paragraph
index at or above 512, chunk over 4096 bytes, or running total over 262144
bytes) produces exactly one send_fail to the sender, is not forwarded, and
discards the state; para_start, para_chunk and para_end frames referencing a
message id with no active state are dropped silently, so no subsequent
frame of those types bearing the discarded id is forwarded; msg_end and ack
frames are, however, forwarded regardless of message state. -/
theorem bound_violation_semantics :
    (∀ (hasPeer : Bool) (st : ActiveMap) (f : Frame) (s : MessageState),
        mapLookup st f.msgId = some s → f.type = "para_start" →
        f.paraIdx ≥ MaxParagraphs →
        handleMessage hasPeer st f
          = (mapErase st f.msgId,
             [.failToSender f.msgId "max_paragraphs_exceeded"])) ∧
    (∀ (hasPeer : Bool) (st : ActiveMap) (f : Frame) (s : MessageState),
        mapLookup st f.msgId = some s → f.type = "para_chunk" →
        f.chunkBytes > MaxChunkSize →
        handleMessage hasPeer st f
          = (mapErase st f.msgId,
             [.failToSender f.msgId "chunk_too_large"])) ∧
    (∀ (hasPeer : Bool) (st : ActiveMap) (f : Frame) (s : MessageState),
        mapLookup st f.msgId = some s → f.type = "para_chunk" →
        f.chunkBytes ≤ MaxChunkSize →
        s.totalBytes + f.chunkBytes > MaxMessageSize →
        handleMessage hasPeer st f
          = (mapErase st f.msgId,
             [.failToSender f.msgId "message_too_large"])) ∧
    (∀ (hasPeer : Bool) (st : ActiveMap) (f : Frame),
        mapLookup st f.msgId = none →
        (f.type = "para_start" ∨ f.type = "para_chunk" ∨ f.type = "para_end") →
        handleMessage hasPeer st f = (st, [])) ∧
    (∀ (hasPeer : Bool) (st : ActiveMap) (m : String) (fs : List Frame),
        mapLookup st m = none →
        (∀ f ∈ fs, f.msgId = m ∧
          (f.type = "para_start" ∨ f.type = "para_chunk" ∨ f.type = "para_end")) →
        runFrames hasPeer st fs = (st, [])) := by
  have hdrop : ∀ (hasPeer : Bool) (st : ActiveMap) (f : Frame),
      mapLookup st f.msgId = none →
      (f.type = "para_start" ∨ f.type = "para_chunk" ∨ f.type = "para_end") →
      handleMessage hasPeer st f = (st, []) := by
    intro hasPeer st f hlk hty
    rcases hty with h | h | h <;>
      simp [handleMessage, h, handleParaStart, handleParaChunk, handleParaEnd,
        hlk]
  refine ⟨?_, ?_, ?_, hdrop, ?_⟩
  · intro hasPeer st f s hlk hty hidx
    simp [handleMessage, hty, handleParaStart, hlk, hidx, sendFail]
  · intro hasPeer st f s hlk hty hsz
    simp [handleMessage, hty, handleParaChunk, hlk, hsz, sendFail]
  · intro hasPeer st f s hlk hty hsz htot
    have h1 : ¬ f.chunkBytes > MaxChunkSize := by omega
    have h2 : s.totalBytes + f.chunkBytes > MaxMessageSize := htot
    simp [handleMessage, hty, handleParaChunk, hlk, h1, h2, sendFail,
      mapErase_mapInsert]
  · intro hasPeer st m fs hlk hall
    induction fs with
    | nil => rfl
    | cons f fs ih =>
        obtain ⟨hm, hty⟩ := hall f (by simp)
        have hstep := hdrop hasPeer st f (hm ▸ hlk) hty
        simp [runFrames, hstep]
        exact ih fun g hg => hall g (by simp [hg])

/-- C3 witness: the amended semantics applied at concrete inputs: a chunk of
4097 bytes on an active state yields exactly the send_fail and erases the
state, and a para_chunk on an unknown id is dropped silently. -/
theorem bound_violation_semantics_witness :
    handleMessage true [("m1", ⟨"m1", 1, 0, 0⟩)] ⟨"para_chunk", "m1", 0, 4097⟩
      = ([], [.failToSender "m1" "chunk_too_large"]) ∧
    handleMessage true [] ⟨"para_chunk", "m9", 0, 3⟩ = ([], []) :=
  ⟨bound_violation_semantics.2.1 true [("m1", ⟨"m1", 1, 0, 0⟩)]
      ⟨"para_chunk", "m1", 0, 4097⟩ ⟨"m1", 1, 0, 0⟩ (by decide) (by decide)
      (by decide),
   bound_violation_semantics.2.2.2.1 true [] ⟨"para_chunk", "m9", 0, 3⟩
      (by decide) (by decide)⟩

/-- C4 (counterexample): a msg_start whose msgId already has an active state
is not rejected silently: the existing state (here with totalBytes = 5) is
overwritten by a fresh one and the frame is forwarded; and a connection
already holding 100 active message states accepts a 101st allocation, which
is forwarded rather than dropped. -/
theorem msg_start_counterexample :
    handleMessage true [("m1", ⟨"m1", 0, 5, -1⟩)] ⟨"msg_start", "m1", -1, 0⟩
      = ([("m1", ⟨"m1", 0, 0, -1⟩)], [.toPeer ⟨"msg_start", "m1", -1, 0⟩]) ∧
    ((handleMessage true
        ((List.range 100).map fun n =>
          ("m" ++ toString n, ⟨"m" ++ toString n, 0, 0, -1⟩))
        ⟨"msg_start", "x", -1, 0⟩).1.length = 101 ∧
     (handleMessage true
        ((List.range 100).map fun n =>
          ("m" ++ toString n, ⟨"m" ++ toString n, 0, 0, -1⟩))
        ⟨"msg_start", "x", -1, 0⟩).2 = [.toPeer ⟨"msg_start", "x", -1, 0⟩]) := by
  refine ⟨by decide, by decide, by decide⟩

/-- C4 (amended): on msg_start with a nonempty msgId and a peer connected, a
fresh message state keyed by msgId is always allocated (overwriting any
existing state with that id) and the frame is forwarded; there is no bound
on the number of active message states. -/
theorem msg_start_always_allocates (hasPeer : Bool) (st : ActiveMap)
    (f : Frame) (hty : f.type = "msg_start") (hid : f.msgId ≠ "")
    (hp : hasPeer = true) :
    handleMessage hasPeer st f
      = (mapInsert st f.msgId
           { msgID := f.msgId, paraCount := 0, totalBytes := 0,
             currentPara := -1 },
         [.toPeer f]) := by
  simp [handleMessage, hty, handleMsgStart, hid, hp]

/-- C4 witness: the amended allocation behaviour at a concrete input. -/
theorem msg_start_always_allocates_witness :
    handleMessage true [("m1", ⟨"m1", 0, 5, -1⟩)] ⟨"msg_start", "m1", -1, 0⟩
      = (mapInsert [("m1", ⟨"m1", 0, 5, -1⟩)] "m1" ⟨"m1", 0, 0, -1⟩,
         [.toPeer ⟨"msg_start", "m1", -1, 0⟩]) :=
  msg_start_always_allocates true [("m1", ⟨"m1", 0, 5, -1⟩)]
    ⟨"msg_start", "m1", -1, 0⟩ (by decide) (by decide) rfl

end Realtime
end FileFlow

namespace FileFlow
namespace Realtime

/-! ## Hub peer delivery (internal/realtime/hub.go) -/

/-- A live client as the hub sees it: an identity (Go compares the map keys
by pointer) and the occupancy and capacity of its outbound send channel
(capacity 256 in NewClient). -/
structure HClient where
  cid : Nat
  queueLen : Nat
  queueCap : Nat
deriving DecidableEq, Repr

/-- The non-blocking enqueue succeeds exactly when the channel has room. -/
def HClient.hasRoom (c : HClient) : Bool := c.queueLen < c.queueCap

/-- Enqueue one message on the client's outbound channel. -/
def HClient.bump (c : HClient) : HClient := { c with queueLen := c.queueLen + 1 }

/-- Hub.SendToPeer (hub.go lines 108-123): iterate the live clients (the Go
map's iteration order is modelled by the list order), skip the sender,
attempt a non-blocking enqueue on each other client and return true on the
first success; a client whose queue is full is skipped (the select default
does continue).  The third component is the list of clients scheduled for
unregistration, which SendToPeer never extends. -/
def sendToPeer : List HClient → Nat → Bool × List HClient × List Nat
  | [], _ => (false, [], [])
  | c :: rest, sender =>
      if c.cid ≠ sender ∧ c.hasRoom then (true, c.bump :: rest, [])
      else
        let r := sendToPeer rest sender
        (r.1, c :: r.2.1, r.2.2)

/-- Hub.Broadcast (hub.go lines 90-106): enqueue to every client except the
excluded one; a client whose queue is full is scheduled for unregistration
(the goroutine sending on h.unregister). -/
def broadcast : List HClient → Option Nat → List HClient × List Nat
  | [], _ => ([], [])
  | c :: rest, ex =>
      let r := broadcast rest ex
      if some c.cid = ex then (c :: r.1, r.2)
      else if c.hasRoom then (c.bump :: r.1, r.2)
      else (c :: r.1, c.cid :: r.2)

/-- C6 (counterexample): with a sender (cid 1) and a single peer (cid 2)
whose outbound queue is full, SendToPeer fails but schedules nothing for
unregistration, contradicting the claim that the slow target client is
scheduled for unregistration. -/
theorem send_to_peer_counterexample :
    sendToPeer [⟨1, 0, 256⟩, ⟨2, 256, 256⟩] 1
      = (false, [⟨1, 0, 256⟩, ⟨2, 256, 256⟩], []) := by
  decide

/-- C6 (amended): SendToPeer delivers the frame by a non-blocking enqueue to
the first client other than the sender whose queue has room; a full target
queue is skipped silently and the send fails (returning false, leaving all
queues unchanged) when no other client can accept; SendToPeer never
schedules any client for unregistration — slow clients are scheduled for
unregistration only by Broadcast, which records exactly the non-excluded
clients with full queues. -/
theorem send_to_peer_semantics :
    (∀ (cs : List HClient) (s : Nat), (sendToPeer cs s).2.2 = []) ∧
    (∀ (cs : List HClient) (s : Nat),
        (sendToPeer cs s).1 = false → (sendToPeer cs s).2.1 = cs) ∧
    (∀ (pre post : List HClient) (c : HClient) (s : Nat),
        (∀ d ∈ pre, d.cid = s ∨ d.hasRoom = false) →
        c.cid ≠ s → c.hasRoom = true →
        sendToPeer (pre ++ c :: post) s = (true, pre ++ c.bump :: post, [])) ∧
    (∀ (cs : List HClient) (ex : Option Nat),
        (broadcast cs ex).2
          = (cs.filter fun c => ¬ some c.cid = ex ∧ c.hasRoom = false).map
              (fun c => c.cid)) := by
  refine ⟨?_, ?_, ?_, ?_⟩
  · intro cs s
    induction cs with
    | nil => rfl
    | cons c rest ih =>
        by_cases h : c.cid ≠ s ∧ c.hasRoom
        · simp [sendToPeer, h]
        · simp [sendToPeer, h, ih]
  · intro cs s
    induction cs with
    | nil => intro _; rfl
    | cons c rest ih =>
        by_cases h : c.cid ≠ s ∧ c.hasRoom
        · simp [sendToPeer, h]
        · intro hf
          have hf' : (sendToPeer rest s).1 = false := by
            simpa [sendToPeer, h] using hf
          simp [sendToPeer, h, ih hf']
  · intro pre post c s hpre hc hroom
    induction pre with
    | nil => simp [sendToPeer, hc, hroom]
    | cons d rest ih =>
        have hd := hpre d (by simp)
        have hcond : ¬ (d.cid ≠ s ∧ d.hasRoom) := by
          rcases hd with h | h <;> simp [h]
        have ih' := ih fun e he => hpre e (by simp [he])
        simp [sendToPeer, hcond, ih']
  · intro cs ex
    induction cs with
    | nil => rfl
    | cons c rest ih =>
        by_cases hex : some c.cid = ex
        · simp [broadcast, hex, ih]
        · by_cases hroom : c.hasRoom
          · simp [broadcast, hex, hroom, ih]
          · simp [broadcast, hex, hroom, ih]

/-- C6 witness: the amended delivery behaviour at concrete inputs: a peer
with room receives the frame, and a full peer is skipped with nothing
scheduled for unregistration. -/
theorem send_to_peer_semantics_witness :
    sendToPeer ([] ++ HClient.mk 2 0 256 :: []) 1
      = (true, [] ++ (HClient.mk 2 0 256).bump :: [], []) ∧
    (sendToPeer [⟨1, 0, 256⟩, ⟨2, 256, 256⟩] 1).2.1
      = [⟨1, 0, 256⟩, ⟨2, 256, 256⟩] :=
  ⟨send_to_peer_semantics.2.2.1 [] [] (HClient.mk 2 0 256) 1
      (by intro d hd; cases hd) (by decide) (by decide),
   send_to_peer_semantics.2.1 [⟨1, 0, 256⟩, ⟨2, 256, 256⟩] 1 (by decide)⟩

end Realtime
end FileFlow

namespace FileFlow
namespace DeviceID

/-! ## Device id validation and EC JWK parsing
    (src/unnamed/part_003 ValidateDeviceID, internal/auth/jwk.go) -/

/-- Value of one character of the base64url alphabet (RawURLEncoding),
none for characters outside the alphabet. -/
def b64Val (c : Char) : Option Nat :=
  if 'A' ≤ c ∧ c ≤ 'Z' then some (c.toNat - 65)
  else if 'a' ≤ c ∧ c ≤ 'z' then some (c.toNat - 97 + 26)
  else if '0' ≤ c ∧ c ≤ '9' then some (c.toNat - 48 + 52)
  else if c = '-' then some 62
  else if c = '_' then some 63
  else none

/-- Unpadded base64url decoding over the character list (Go
base64.RawURLEncoding.DecodeString): groups of four characters decode to
three bytes, a final group of two or three characters to one or two bytes,
and a trailing single character is an error; trailing padding bits are
discarded as in Go's non-strict decoder. -/
def b64DecodeChars : List Char → Option (List Nat)
  | [] => some []
  | [_] => none
  | [a, b] => do
      let va ← b64Val a
      let vb ← b64Val b
      pure [va * 4 + vb / 16]
  | [a, b, c] => do
      let va ← b64Val a
      let vb ← b64Val b
      let vc ← b64Val c
      pure [va * 4 + vb / 16, (vb % 16) * 16 + vc / 4]
  | a :: b :: c :: d :: rest => do
      let va ← b64Val a
      let vb ← b64Val b
      let vc ← b64Val c
      let vd ← b64Val d
      let tail ← b64DecodeChars rest
      pure ([va * 4 + vb / 16, (vb % 16) * 16 + vc / 4, (vc % 4) * 64 + vd]
              ++ tail)

/-- Unpadded base64url decoding of a string to bytes. -/
def b64urlDecode (s : String) : Option (List Nat) :=
  b64DecodeChars s.toList

/-- Character of a 6-bit value in the base64url alphabet. -/
def b64Char (n : Nat) : Char :=
  if n < 26 then Char.ofNat (65 + n)
  else if n < 52 then Char.ofNat (97 + n - 26)
  else if n < 62 then Char.ofNat (48 + n - 52)
  else if n = 62 then '-'
  else '_'

/-- Unpadded base64url encoding of a byte list (Go
base64.RawURLEncoding.EncodeToString): three bytes become four characters,
a final byte becomes two characters, two final bytes become three. -/
def b64EncodeBytes : List Nat → List Char
  | [] => []
  | [a] => [b64Char (a / 4), b64Char (a % 4 * 16)]
  | [a, b] =>
      [b64Char (a / 4), b64Char (a % 4 * 16 + b / 16), b64Char (b % 16 * 4)]
  | a :: b :: c :: rest =>
      b64Char (a / 4) :: b64Char (a % 4 * 16 + b / 16)
        :: b64Char (b % 16 * 4 + c / 64) :: b64Char (c % 64)
        :: b64EncodeBytes rest

/-- Unpadded base64url encoding as a string. -/
def b64urlEncode (bytes : List Nat) : String :=
  String.mk (b64EncodeBytes bytes)

/-- Length of the unpadded base64url encoding: four characters per three
bytes, plus two or three characters for a remainder of one or two bytes. -/
theorem b64EncodeBytes_length (l : List Nat) :
    (b64EncodeBytes l).length
      = 4 * (l.length / 3)
        + (if l.length % 3 = 0 then 0 else if l.length % 3 = 1 then 2 else 3) := by
  match l with
  | [] => rfl
  | [a] => simp [b64EncodeBytes]
  | [a, b] => simp [b64EncodeBytes]
  | a :: b :: c :: rest =>
      have ih := b64EncodeBytes_length rest
      simp only [b64EncodeBytes, List.length_cons, ih]
      have hm : (rest.length + 1 + 1 + 1) % 3 = rest.length % 3 := by omega
      have hd : (rest.length + 1 + 1 + 1) / 3 = rest.length / 3 + 1 := by omega
      simp only [hm, hd]
      split_ifs <;> omega

/-- The prime modulus of the P-256 curve. -/
def p256P : Nat :=
  115792089210356248762697446949407573530086143415290314195533631308867097853951

/-- The b coefficient of the P-256 curve equation. -/
def p256B : Nat :=
  41058363725152142129326129780047268409114441015993725554835256314039467401291

/-- elliptic.P256().IsOnCurve: coordinates must be canonical (below the
modulus) and satisfy the curve equation y^2 = x^3 - 3x + b mod p. -/
def isOnCurveP256 (x y : Nat) : Bool :=
  decide (x < p256P) && decide (y < p256P)
    && decide ((y * y) % p256P
                 = (x * x * x + (p256P - 3) * x + p256B) % p256P)

/-- Big-endian bytes to an integer (big.Int SetBytes). -/
def beBytesToNat (l : List Nat) : Nat :=
  l.foldl (fun acc b => acc * 256 + b) 0

/-- The public portion of an EC JWK (struct ECPublicJWK in jwk.go): the
request's pub_jwk map is carried as the four string fields that
json.Unmarshal extracts from it, an absent field being the empty string. -/
structure ECPublicJWK where
  kty : String
  crv : String
  x : String
  y : String
deriving DecidableEq, Repr

/-- ParseECPublicJWKMap / ParseECPublicJWKBytes (jwk.go lines 24-65): require
kty=EC, crv=P-256And nonempty base64url x and y decoding to an on-curve
P-256 point; return the curve point on success. -/
def ParseECPublicJWK (jwk : ECPublicJWK) : Option (Nat × Nat) :=
  if jwk.kty ≠ "EC" ∨ jwk.crv ≠ "P-256" then none
  else if jwk.x = "" ∨ jwk.y = "" then none
  else
    match b64urlDecode jwk.x, b64urlDecode jwk.y with
    | some xB, some yB =>
        let x := beBytesToNat xB
        let y := beBytesToNat yB
        if isOnCurveP256 x y then some (x, y) else none
    | _, _ => none

/-- Characters allowed in a device id. -/
def isDeviceIDChar (c : Char) : Bool :=
  ('A' ≤ c && c ≤ 'Z') || ('a' ≤ c && c ≤ 'z') || ('0' ≤ c && c ≤ '9')
    || c = '_' || c = '-'

/-- ValidateDeviceIDFormat (src/unnamed/part_003 lines 10-13): the regex
[A-Za-z0-9_-] repeated 10 to 128 times, anchored. -/
def ValidateDeviceIDFormat (s : String) : Bool :=
  decide (10 ≤ s.length) && decide (s.length ≤ 128)
    && s.toList.all isDeviceIDChar

/-- ValidateDeviceID (src/unnamed/part_003 lines 16-32): returns the error
message, or none on acceptance.  The implementation checks only that the id
is nonempty, matches the format regex, and that the supplied key parses as
a valid EC JWK; despite its own doc comment it never compares the id
against the SHA-256 hash of the key. -/
def ValidateDeviceID (deviceID : String) (pubJWK : Option ECPublicJWK) :
    Option String :=
  if deviceID = "" then some "device_id is required"
  else if ¬ ValidateDeviceIDFormat deviceID then some "invalid device_id format"
  else
    match pubJWK with
    | none => some "public_key is required"
    | some jwk =>
        if (ParseECPublicJWK jwk).isNone then some "invalid public key"
        else none

/-- handleAdminDevices (src/internal/handler/api.go lines 339-391), reduced
to its decision: bootstrapOK models the X-Admin-Bootstrap comparison,
alreadyEnrolled models store.AddDevice returning ErrDeviceExists; the body
decode and the jwk re-serialization cannot fail for the inputs modelled
here.  Returns the HTTP status and the response code. -/
def handleAdminDevices (bootstrapOK : Bool) (deviceID : String)
    (pubJWK : Option ECPublicJWK) (alreadyEnrolled : Bool) : Nat × String :=
  if ¬ bootstrapOK then (401, "INVALID_TOKEN")
  else
    match ValidateDeviceID deviceID pubJWK with
    | some _ => (400, "INVALID_DEVICE_ID")
    | none => if alreadyEnrolled then (409, "DEVICE_EXISTS") else (200, "ADDED")

/-- A valid P-256 public key: the base-point coordinates of the curve in
base64url. -/
def genJWK : ECPublicJWK :=
  { kty := "EC", crv := "P-256",
    x := "axfR8uEsQkf4vOblY6RA8ncDfYEt6zOg9KE5RdiYwpY",
    y := "T-NC4v4af5uO5-tKfA-eFivOM1drMV7Oy7ZAaDe_UfU" }

/-- C2: the admin devices endpoint accepts an enrollment whose device_id is
the 10-character string AAAAAAAAAA together with a valid P-256 key, but a
url-safe base64 encoding of a SHA-256 digest (32 bytes) is always 43
characters long, so the accepted device_id cannot equal the canonical-JSON
hash of any key: the hash equality claimed by the spec and by
ValidateDeviceID's own doc comment is not enforced. -/
theorem device_id_hash_not_enforced :
    handleAdminDevices true "AAAAAAAAAA" (some genJWK) false = (200, "ADDED") ∧
    ∀ digest : { l : List Nat // l.length = 32 },
      b64urlEncode digest.val ≠ "AAAAAAAAAA" := by
  constructor
  · decide
  · intro d heq
    have hlen : (b64urlEncode d.val).length = 43 := by
      show (b64EncodeBytes d.val).length = 43
      rw [b64EncodeBytes_length, d.property]
      decide
    rw [heq] at hlen
    exact absurd hlen (by decide)

end DeviceID
end FileFlow

namespace FileFlow
namespace Attest

/-! ## Challenge store and the attest handler
    (src/unnamed/part_004, src/internal/handler/api.go lines 450-524) -/

/-- An attestation challenge (struct Challenge in src/unnamed/part_004). -/
structure Challenge where
  id : String
  deviceID : String
  nonce : List Nat
  expiresAt : Int
deriving DecidableEq, Repr

/-- The challenge store's map, as an association list. -/
abbrev ChallengeMap := List (String × Challenge)

/-- Go map lookup for challenges. -/
def chLookup (m : ChallengeMap) (k : String) : Option Challenge :=
  match m with
  | [] => none
  | (k', v) :: rest => if k' = k then some v else chLookup rest k

/-- Go map delete for challenges (a no-op when the key is absent). -/
def chErase (m : ChallengeMap) (k : String) : ChallengeMap :=
  match m with
  | [] => []
  | (k', v') :: rest => if k' = k then rest else (k', v') :: chErase rest k

/-- Errors of ChallengeStore.Consume. -/
inductive ChallengeError
  | notFound
  | expired
deriving DecidableEq, Repr

/-- ChallengeStore.Consume (src/unnamed/part_004 lines 90-104): in one
critical section, look up the id (absent gives ErrChallengeNotFound),
delete the entry, then fail with ErrChallengeExpired when now is strictly
after expiresAt; otherwise return the challenge. -/
def consume (m : ChallengeMap) (id : String) (now : Int) :
    Except ChallengeError Challenge × ChallengeMap :=
  match chLookup m id with
  | none => (.error .notFound, m)
  | some ch =>
      let m' := chErase m id
      if now > ch.expiresAt then (.error .expired, m') else (.ok ch, m')

/-- A lookup of a key that does not occur among the map's keys fails. -/
theorem chLookup_eq_none_of_not_mem (m : ChallengeMap) (k : String)
    (h : k ∉ m.map Prod.fst) : chLookup m k = none := by
  induction m with
  | nil => rfl
  | cons hd tl ih =>
      obtain ⟨k', v⟩ := hd
      simp only [List.map_cons, List.mem_cons] at h
      push_neg at h
      simp [chLookup, Ne.symm h.1, ih h.2]

/-- With no duplicate keys, erasing a key removes it entirely. -/
theorem chLookup_chErase_self (m : ChallengeMap) (k : String)
    (hnd : (m.map Prod.fst).Nodup) : chLookup (chErase m k) k = none := by
  induction m with
  | nil => rfl
  | cons hd tl ih =>
      obtain ⟨k', v⟩ := hd
      simp only [List.map_cons, List.nodup_cons] at hnd
      by_cases h : k' = k
      · subst h
        simp [chErase, chLookup_eq_none_of_not_mem tl k' hnd.1]
      · simp [chErase, chLookup, h, ih hnd.2]

/-- The attest request body after json decoding
(handleDeviceAttest in api.go). -/
structure AttestReq where
  challengeID : String
  deviceID : String
  signature : String
deriving DecidableEq, Repr

/-- Environment of the attest handler: the enrolled devices (device id to
stored pub_jwk_json), an oracle for ParseECPublicJWKBytes succeeding on the
stored JSON, an oracle for the base64url signature decode plus ECDSA
verification over the nonce (VerifyECDSASignature; both of its failure
modes produce the same 401 INVALID_SIGNATURE response), and the clock. -/
structure AttestEnv where
  devices : List (String × String)
  parseOK : String → Bool
  sigOK : String → List Nat → String → Bool
  now : Int

/-- Device store lookup (store.GetDevice restricted to found / not found;
the not-found case is the one every modelled claim turns on). -/
def devLookup (m : List (String × String)) (k : String) : Option String :=
  match m with
  | [] => none
  | (k', v) :: rest => if k' = k then some v else devLookup rest k

/-- Response of the attest handler: HTTP status, machine code, and whether
the device_ticket cookie was set. -/
structure AttestResp where
  status : Nat
  code : String
  cookieSet : Bool
deriving DecidableEq, Repr

/-- handleDeviceAttest (api.go lines 450-524): validate the request shape,
atomically consume the challenge (both ErrChallengeNotFound and
ErrChallengeExpired surface as 400 CHALLENGE_EXPIRED), bind-check the
device id, load the device, parse its stored key, verify the signature,
and only on success mint the version-2 ticket and set the cookie. -/
def handleDeviceAttest (env : AttestEnv) (st : ChallengeMap)
    (req : AttestReq) : AttestResp × ChallengeMap :=
  if req.challengeID = "" ∨ ¬ DeviceID.ValidateDeviceIDFormat req.deviceID then
    ({ status := 400, code := "INVALID_DEVICE_ID", cookieSet := false }, st)
  else
    match consume st req.challengeID env.now with
    | (.error _, st') =>
        ({ status := 400, code := "CHALLENGE_EXPIRED", cookieSet := false }, st')
    | (.ok ch, st') =>
        if ch.deviceID ≠ req.deviceID then
          ({ status := 400, code := "INVALID_DEVICE_ID", cookieSet := false }, st')
        else
          match devLookup env.devices req.deviceID with
          | none =>
              ({ status := 403, code := "DEVICE_NOT_ENROLLED",
                 cookieSet := false }, st')
          | some jwkJSON =>
              if ¬ env.parseOK jwkJSON then
                ({ status := 400, code := "INVALID_PUBLIC_KEY",
                   cookieSet := false }, st')
              else if ¬ env.sigOK jwkJSON ch.nonce req.signature then
                ({ status := 401, code := "INVALID_SIGNATURE",
                   cookieSet := false }, st')
              else
                ({ status := 200, code := "DEVICE_OK", cookieSet := true }, st')

/-- C9: challenges are single-use and expiry-checked on consumption.  With
no duplicate challenge ids (a Go map cannot hold any), a second consume of
an id that has already been consumed fails with ErrChallengeNotFound; a
consume of a challenge whose expires_at lies strictly in the past fails
with ErrChallengeExpired even though the entry is still present; and the
attest handler surfaces that failure as 400 CHALLENGE_EXPIRED with no
device_ticket cookie set. -/
theorem challenge_single_use_and_expiry :
    (∀ (m : ChallengeMap) (id : String) (t1 t2 : Int),
        (m.map Prod.fst).Nodup →
        (consume (consume m id t1).2 id t2).1 = .error .notFound) ∧
    (∀ (m : ChallengeMap) (id : String) (now : Int) (ch : Challenge),
        chLookup m id = some ch → now > ch.expiresAt →
        (consume m id now).1 = .error .expired) ∧
    (∀ (env : AttestEnv) (st : ChallengeMap) (req : AttestReq)
        (ch : Challenge),
        req.challengeID ≠ "" →
        DeviceID.ValidateDeviceIDFormat req.deviceID = true →
        chLookup st req.challengeID = some ch →
        env.now > ch.expiresAt →
        handleDeviceAttest env st req
          = ({ status := 400, code := "CHALLENGE_EXPIRED", cookieSet := false },
             chErase st req.challengeID)) := by
  refine ⟨?_, ?_, ?_⟩
  · intro m id t1 t2 hnd
    simp only [consume]
    match h : chLookup m id with
    | none => simp [consume, h]
    | some ch =>
        have herase := chLookup_chErase_self m id hnd
        by_cases hexp : t1 > ch.expiresAt <;>
          simp [consume, h, hexp, herase]
  · intro m id now ch hlk hexp
    simp [consume, hlk, hexp]
  · intro env st req ch hcid hfmt hlk hexp
    simp [handleDeviceAttest, hcid, hfmt, consume, hlk, hexp]

/-- C9 witness: the single-use, expiry and handler behaviour at concrete
inputs (a store holding one challenge c1 for device-0001 expiring at time
100, consumed or attested at time 101). -/
theorem challenge_single_use_and_expiry_witness :
    (consume (consume [("c1", ⟨"c1", "device-0001", [7], 100⟩)] "c1" 50).2
        "c1" 60).1 = .error .notFound ∧
    (consume [("c1", ⟨"c1", "device-0001", [7], 100⟩)] "c1" 101).1
      = .error .expired ∧
    handleDeviceAttest ⟨[("device-0001", "jwk")], fun _ => true,
        fun _ _ _ => true, 101⟩
        [("c1", ⟨"c1", "device-0001", [7], 100⟩)]
        ⟨"c1", "device-0001", "sig"⟩
      = ({ status := 400, code := "CHALLENGE_EXPIRED", cookieSet := false },
         []) :=
  ⟨challenge_single_use_and_expiry.1
      [("c1", ⟨"c1", "device-0001", [7], 100⟩)] "c1" 50 60 (by decide),
   challenge_single_use_and_expiry.2.1
      [("c1", ⟨"c1", "device-0001", [7], 100⟩)] "c1" 101
      ⟨"c1", "device-0001", [7], 100⟩ (by decide) (by decide),
   challenge_single_use_and_expiry.2.2
      ⟨[("device-0001", "jwk")], fun _ => true, fun _ _ _ => true, 101⟩
      [("c1", ⟨"c1", "device-0001", [7], 100⟩)] ⟨"c1", "device-0001", "sig"⟩
      ⟨"c1", "device-0001", [7], 100⟩ (by decide) (by decide) (by decide)
      (by decide)⟩

end Attest
end FileFlow

namespace FileFlow
namespace Gateway

/-! ## Connection limiter and the websocket upgrade handshake
    (internal/limit/limiter.go, api.go lines 695-747) -/

/-- ConnLimiter (limiter.go): per-ip counts, the global count and both
caps. -/
structure ConnLimiter where
  ipCounts : List (String × Nat)
  totalCount : Nat
  maxPerIP : Nat
  maxGlobal : Nat
deriving DecidableEq, Repr

/-- Go map read with the zero value for an absent key. -/
def cmCount (m : List (String × Nat)) (ip : String) : Nat :=
  match m with
  | [] => 0
  | (k, n) :: rest => if k = ip then n else cmCount rest ip

/-- Go map assignment. -/
def cmSet (m : List (String × Nat)) (ip : String) (n : Nat) :
    List (String × Nat) :=
  match m with
  | [] => [(ip, n)]
  | (k, v) :: rest => if k = ip then (ip, n) :: rest else (k, v) :: cmSet rest ip n

/-- ConnLimiter.Increment (limiter.go lines 60-75): refuse when the global
count has reached the global cap or the ip's count has reached the per-ip
cap, otherwise record the new connection. -/
def ConnLimiter.increment (l : ConnLimiter) (ip : String) :
    Bool × ConnLimiter :=
  if l.totalCount ≥ l.maxGlobal then (false, l)
  else if cmCount l.ipCounts ip ≥ l.maxPerIP then (false, l)
  else
    (true,
     { l with ipCounts := cmSet l.ipCounts ip (cmCount l.ipCounts ip + 1),
              totalCount := l.totalCount + 1 })

/-- Failure modes of verifyDeviceTicket as the callers distinguish them:
errMissingDeviceTicket versus every other error. -/
inductive DTError
  | missing
  | invalid
deriving DecidableEq, Repr

/-- verifyDeviceTicket (api.go lines 556-572): read the device_ticket
cookie, verify it expecting the device-ticket version, and validate the
subject's device-id format. -/
def verifyDeviceTicket (tm : TokenManager) (now : Int)
    (cookie : Option Token) : Except DTError String :=
  match cookie with
  | none => .error .missing
  | some t =>
      match tm.verifyWithVersion t TokenVersionDeviceTicket now with
      | .error _ => .error .invalid
      | .ok c =>
          if ¬ DeviceID.ValidateDeviceIDFormat c.sid then .error .invalid
          else .ok c.sid

/-- The upgrader's CheckOrigin callback (New in api.go): an empty configured
origin accepts everything, otherwise the Origin header must equal the
configured domain bare or with the https prefix. -/
def checkOrigin (allowed origin : String) : Bool :=
  allowed = "" || origin = allowed || origin = "https://" ++ allowed

/-- A websocket upgrade request: the two cookies, the Origin header and the
resolved client ip. -/
structure WSRequest where
  deviceTicket : Option Token
  sessionCookie : Option Token
  origin : String
  ip : String

/-- Handler environment for the upgrade: token manager, the set of enrolled
device ids (store.GetDevice succeeding; driver failures, which produce a
500, are not modelled), the configured origin and the clock. -/
structure WSEnv where
  tm : TokenManager
  enrolled : List String
  allowedOrigin : String
  now : Int

/-- Observable outcome of the upgrade handshake, in the order the handler
produces effects. -/
inductive WSOutcome
  | httpError (status : Nat) (code : String)
  | upgradeRejected
  | upgradedThenClosed
  | connected (clientID : String)
deriving DecidableEq, Repr

/-- handleWebSocket (api.go lines 695-747): verify the device ticket,
confirm enrollment, verify the session cookie, then call
upgrader.Upgrade — whose CheckOrigin failure makes the upgrade fail with an
HTTP 403 written by the websocket library (upgradeRejected) — and only
after the socket has been upgraded try to increment the connection counter,
closing the new socket when the increment fails (upgradedThenClosed, with
no HTTP error). -/
def handleWebSocket (env : WSEnv) (lim : ConnLimiter) (req : WSRequest) :
    WSOutcome × ConnLimiter :=
  match verifyDeviceTicket env.tm env.now req.deviceTicket with
  | .error .missing => (.httpError 401 "MISSING_DEVICE_TICKET", lim)
  | .error .invalid => (.httpError 401 "INVALID_DEVICE_TICKET", lim)
  | .ok deviceID =>
      if ¬ env.enrolled.contains deviceID then
        (.httpError 403 "DEVICE_NOT_ENROLLED", lim)
      else
        match req.sessionCookie with
        | none => (.httpError 401 "UNAUTHORIZED", lim)
        | some t =>
            match env.tm.verifyWithVersion t TokenVersionSession env.now with
            | .error _ => (.httpError 401 "UNAUTHORIZED", lim)
            | .ok claims =>
                if ¬ checkOrigin env.allowedOrigin req.origin then
                  (.upgradeRejected, lim)
                else
                  match lim.increment req.ip with
                  | (false, lim') => (.upgradedThenClosed, lim')
                  | (true, lim') => (.connected claims.sid, lim')

end Gateway
end FileFlow

namespace FileFlow
namespace Gateway

/-- C5 (counterexample): with a valid device ticket for an enrolled device,
a valid session cookie, a matching Origin, and a connection counter already
at its global cap (maxGlobal = 0), the handshake upgrades the socket and
only then fails the counter increment, closing the upgraded connection with
no HTTP error — contradicting the claim that the counter increment is
attempted before the upgrade and that every failure surfaces as an HTTP
error before the upgrade completes. -/
theorem handshake_counterexample :
    handleWebSocket
        ⟨TokenManager.mk [3], ["device-0001"], "example.com", 10⟩
        ⟨[], 0, 5, 0⟩
        ⟨some ((TokenManager.mk [3]).sign "device-0001" 2 600 0),
         some ((TokenManager.mk [3]).sign "s1" 1 600 0),
         "https://example.com", "1.2.3.4"⟩
      = (.upgradedThenClosed, ⟨[], 0, 5, 0⟩) := by
  decide

/-- C5 (amended): the handshake checks run in the order: verify device
ticket (missing then invalid), confirm the device is still enrolled, verify
the session cookie, then attempt the upgrade with the Origin check deciding
it; each of those failures yields an HTTP error (or the upgrader's
rejection) before any upgrade; the per-ip/global counter increment is
attempted only after a successful upgrade, a failed increment closing the
upgraded connection without an HTTP error and a successful one completing
the connection. -/
theorem handshake_order :
    (∀ (env : WSEnv) (lim : ConnLimiter) (req : WSRequest),
        verifyDeviceTicket env.tm env.now req.deviceTicket = .error .missing →
        handleWebSocket env lim req
          = (.httpError 401 "MISSING_DEVICE_TICKET", lim)) ∧
    (∀ (env : WSEnv) (lim : ConnLimiter) (req : WSRequest),
        verifyDeviceTicket env.tm env.now req.deviceTicket = .error .invalid →
        handleWebSocket env lim req
          = (.httpError 401 "INVALID_DEVICE_TICKET", lim)) ∧
    (∀ (env : WSEnv) (lim : ConnLimiter) (req : WSRequest) (d : String),
        verifyDeviceTicket env.tm env.now req.deviceTicket = .ok d →
        env.enrolled.contains d = false →
        handleWebSocket env lim req
          = (.httpError 403 "DEVICE_NOT_ENROLLED", lim)) ∧
    (∀ (env : WSEnv) (lim : ConnLimiter) (req : WSRequest) (d : String),
        verifyDeviceTicket env.tm env.now req.deviceTicket = .ok d →
        env.enrolled.contains d = true →
        req.sessionCookie = none →
        handleWebSocket env lim req = (.httpError 401 "UNAUTHORIZED", lim)) ∧
    (∀ (env : WSEnv) (lim : ConnLimiter) (req : WSRequest) (d : String)
        (t : Token) (e : TokenError),
        verifyDeviceTicket env.tm env.now req.deviceTicket = .ok d →
        env.enrolled.contains d = true →
        req.sessionCookie = some t →
        env.tm.verifyWithVersion t TokenVersionSession env.now = .error e →
        handleWebSocket env lim req = (.httpError 401 "UNAUTHORIZED", lim)) ∧
    (∀ (env : WSEnv) (lim : ConnLimiter) (req : WSRequest) (d : String)
        (t : Token) (c : Claims),
        verifyDeviceTicket env.tm env.now req.deviceTicket = .ok d →
        env.enrolled.contains d = true →
        req.sessionCookie = some t →
        env.tm.verifyWithVersion t TokenVersionSession env.now = .ok c →
        checkOrigin env.allowedOrigin req.origin = false →
        handleWebSocket env lim req = (.upgradeRejected, lim)) ∧
    (∀ (env : WSEnv) (lim : ConnLimiter) (req : WSRequest) (d : String)
        (t : Token) (c : Claims),
        verifyDeviceTicket env.tm env.now req.deviceTicket = .ok d →
        env.enrolled.contains d = true →
        req.sessionCookie = some t →
        env.tm.verifyWithVersion t TokenVersionSession env.now = .ok c →
        checkOrigin env.allowedOrigin req.origin = true →
        handleWebSocket env lim req
          = (if (lim.increment req.ip).1 then WSOutcome.connected c.sid
             else WSOutcome.upgradedThenClosed,
             (lim.increment req.ip).2)) := by
  refine ⟨?_, ?_, ?_, ?_, ?_, ?_, ?_⟩
  · intro env lim req h
    simp [handleWebSocket, h]
  · intro env lim req h
    simp [handleWebSocket, h]
  · intro env lim req d h hcon
    have hnmem : d ∉ env.enrolled := by simpa using hcon
    simp [handleWebSocket, h, hnmem]
  · intro env lim req d h hcon hsess
    have hmem : d ∈ env.enrolled := by simpa using hcon
    simp [handleWebSocket, h, hmem, hsess]
  · intro env lim req d t e h hcon hsess hver
    have hmem : d ∈ env.enrolled := by simpa using hcon
    simp [handleWebSocket, h, hmem, hsess, hver]
  · intro env lim req d t c h hcon hsess hver horig
    have hmem : d ∈ env.enrolled := by simpa using hcon
    simp [handleWebSocket, h, hmem, hsess, hver, horig]
  · intro env lim req d t c h hcon hsess hver horig
    have hmem : d ∈ env.enrolled := by simpa using hcon
    rcases hinc : lim.increment req.ip with ⟨b, lim'⟩
    cases b <;> simp [handleWebSocket, h, hmem, hsess, hver, horig, hinc]

/-- C5 witness: the amended handshake contract applied at concrete inputs —
a request with no device ticket yields 401 MISSING_DEVICE_TICKET, and a
fully authorized request against a full counter upgrades and is then
closed. -/
theorem handshake_order_witness :
    handleWebSocket ⟨TokenManager.mk [3], [], "", 0⟩ ⟨[], 0, 1, 1⟩
        ⟨none, none, "", "9.9.9.9"⟩
      = (.httpError 401 "MISSING_DEVICE_TICKET", ⟨[], 0, 1, 1⟩) ∧
    handleWebSocket ⟨TokenManager.mk [3], ["device-0001"], "example.com", 10⟩
        ⟨[], 0, 5, 0⟩
        ⟨some ((TokenManager.mk [3]).sign "device-0001" 2 600 0),
         some ((TokenManager.mk [3]).sign "s1" 1 600 0),
         "https://example.com", "1.2.3.4"⟩
      = (if ((ConnLimiter.mk [] 0 5 0).increment "1.2.3.4").1
           then WSOutcome.connected "s1" else WSOutcome.upgradedThenClosed,
         ((ConnLimiter.mk [] 0 5 0).increment "1.2.3.4").2) :=
  ⟨handshake_order.1 ⟨TokenManager.mk [3], [], "", 0⟩ ⟨[], 0, 1, 1⟩
      ⟨none, none, "", "9.9.9.9"⟩ rfl,
   handshake_order.2.2.2.2.2.2
      ⟨TokenManager.mk [3], ["device-0001"], "example.com", 10⟩
      ⟨[], 0, 5, 0⟩
      ⟨some ((TokenManager.mk [3]).sign "device-0001" 2 600 0),
       some ((TokenManager.mk [3]).sign "s1" 1 600 0),
       "https://example.com", "1.2.3.4"⟩
      "device-0001" ((TokenManager.mk [3]).sign "s1" 1 600 0)
      { ver := 1, sid := "s1", iat := 0, exp := 600 }
      rfl (by decide) rfl rfl (by decide)⟩

end Gateway
end FileFlow

namespace FileFlow
namespace ClientIP

/-! ## Client ip resolution (internal/handler/middleware.go lines 135-166) -/

/-- ASCII whitespace, modelling the characters strings.TrimSpace removes in
the inputs at hand. -/
def isSpaceChar (c : Char) : Bool :=
  c = ' ' || c = '\t' || c = '\n' || c = '\r'

/-- strings.TrimSpace over the character list. -/
def trimChars (l : List Char) : List Char :=
  ((l.dropWhile isSpaceChar).reverse.dropWhile isSpaceChar).reverse

/-- strings.TrimSpace. -/
def trimStr (s : String) : String :=
  String.mk (trimChars s.toList)

/-- strings.Split on the comma separator, over the character list; splitting
the empty string yields a single empty field, as in Go. -/
def splitCommaChars : List Char → List (List Char)
  | [] => [[]]
  | c :: rest =>
      let r := splitCommaChars rest
      if c = ',' then [] :: r
      else
        match r with
        | [] => [[c]]
        | g :: gs => (c :: g) :: gs

/-- strings.Split(s, ","). -/
def splitComma (s : String) : List String :=
  (splitCommaChars s.toList).map String.mk

/-- The network environment of getClientIP: trusted models isTrusted
(middleware.go lines 54-69, membership of the parsed address in the
configured trusted-proxy CIDR set, false for unparseable strings), and
validIP models net.ParseIP succeeding. -/
structure NetEnv where
  trusted : String → Bool
  validIP : String → Bool

/-- A request as getClientIP sees it: the host part of r.RemoteAddr after
net.SplitHostPort (with the whole address as fallback), and the
X-Forwarded-For and X-Real-IP header values (empty string when unset). -/
structure IPRequest where
  remoteHost : String
  xff : String
  xri : String

/-- The right-to-left scan of the X-Forwarded-For entries (the loop in
getClientIP): working from the last entry backwards, skip empty entries
after trimming and return the first entry not itself trusted.  The argument
is the split list reversed, so the head is the rightmost entry. -/
def scanRTL (trusted : String → Bool) : List String → Option String
  | [] => none
  | part :: rest =>
      let ip := trimStr part
      if ip ≠ "" ∧ ¬ trusted ip then some ip else scanRTL trusted rest

/-- getClientIP (middleware.go lines 135-166): an untrusted immediate host
is returned unconditionally; for a trusted host, scan X-Forwarded-For right
to left for the first untrusted entry, fall back to a well-formed X-Real-IP,
and finally to the host itself. -/
def getClientIP (env : NetEnv) (r : IPRequest) : String :=
  let host := r.remoteHost
  if ¬ env.trusted host then host
  else
    let fromXFF :=
      if r.xff ≠ "" then scanRTL env.trusted (splitComma r.xff).reverse
      else none
    match fromXFF with
    | some ip => ip
    | none =>
        let xri := trimStr r.xri
        if xri ≠ "" ∧ env.validIP xri then xri else host

/-- C7: whenever the immediate remote host is not in the trusted-proxy set,
getClientIP returns that host, and the result is identical for any two
requests from that host differing only in their X-Forwarded-For and
X-Real-IP header values; when the host is trusted and the right-to-left
scan of X-Forwarded-For finds an entry not itself trusted, that entry is
returned. -/
theorem client_ip_resolution :
    (∀ (env : NetEnv) (r : IPRequest),
        env.trusted r.remoteHost = false → getClientIP env r = r.remoteHost) ∧
    (∀ (env : NetEnv) (h xff xff' xri xri' : String),
        env.trusted h = false →
        getClientIP env ⟨h, xff, xri⟩ = getClientIP env ⟨h, xff', xri'⟩) ∧
    (∀ (env : NetEnv) (r : IPRequest) (ip : String),
        env.trusted r.remoteHost = true →
        r.xff ≠ "" →
        scanRTL env.trusted (splitComma r.xff).reverse = some ip →
        getClientIP env r = ip) := by
  refine ⟨?_, ?_, ?_⟩
  · intro env r h
    simp [getClientIP, h]
  · intro env h xff xff' xri xri' htr
    simp [getClientIP, htr]
  · intro env r ip htr hxff hscan
    simp [getClientIP, htr, hxff, hscan]

/-- C7 witness: the resolution behaviour at concrete inputs mirroring the
repository's own ip tests — an untrusted host ignores a spoofed header, and
a trusted host takes the rightmost untrusted X-Forwarded-For entry. -/
theorem client_ip_resolution_witness :
    getClientIP ⟨fun s => s == "10.0.0.1", fun _ => true⟩
        ⟨"203.0.113.9", "10.0.0.1", ""⟩ = "203.0.113.9" ∧
    getClientIP ⟨fun s => s == "10.0.0.1", fun _ => true⟩
        ⟨"10.0.0.1", "203.0.113.5, 10.0.0.1", ""⟩ = "203.0.113.5" :=
  ⟨client_ip_resolution.1 ⟨fun s => s == "10.0.0.1", fun _ => true⟩
      ⟨"203.0.113.9", "10.0.0.1", ""⟩ (by decide),
   client_ip_resolution.2.2 ⟨fun s => s == "10.0.0.1", fun _ => true⟩
      ⟨"10.0.0.1", "203.0.113.5, 10.0.0.1", ""⟩ "203.0.113.5" (by decide)
      (by decide) (by decide)⟩

end ClientIP
end FileFlow
